import Mathlib

/-
Shallow embedding of the transaction-confirmation polling protocol of
Provider.go (package zksync2), together with the null-checked RPC query
wrappers.

Modelling choices:
* The RPC transport is an environment: each loop iteration's raw RPC
  response is a function of the attempt index (`Nat → Except GoError _`).
* Go's `select { case <-ctx.Done(); case <-queryTicker.C }` is modelled by
  a trace `sel : Nat → Option CancelReason`: after attempt `i`, `sel i =
  some reason` means the select observed the cancelled context (yielding
  `ctx.Err() = reason`), `none` means the ticker fired and the loop goes on.
* The unbounded `for` loops take a fuel argument; a result of `none` means
  the loop is still running after `fuel` iterations (each iteration
  performs exactly one fetch, so fuel also bounds the number of attempts).
* `WaitMined` additionally reports the number of receipt fetches performed,
  so attempt-count properties are expressible.
* Go string error messages carry no structure, so they are represented by
  the enumeration `Msg` (one constructor per distinct message in the
  source); `fmt.Errorf("...: %w", err)` becomes `GoError.wrapped msg err`,
  `errors.New` becomes `GoError.errNew msg`, `ethereum.NotFound` becomes
  `GoError.notFound`, and transport/server failures produced by the
  environment are `GoError.transport code`.
-/

namespace ZkSync2

/-- Reason carried by ctx.Err(): context.Canceled or context.DeadlineExceeded. -/
inductive CancelReason where
  | canceled
  | deadlineExceeded
deriving DecidableEq

/-- Error message constants appearing in Provider.go (each stands for the
Go string of the same meaning). -/
inductive Msg where
  | queryGetTransactionReceipt
  | queryGetTransactionByHash
  | queryGetBlockByNumber
  | queryGetBlockByHash
  | queryGetL2ToL1LogProof
  | queryGetBlockDetails
  | failedWaitMined
  | failedGetFinalizedBlock
  | emptyTxBlockNumber
deriving DecidableEq

/-- Errors of the embedded Go code: ethereum.NotFound, transport-level RPC
failures (opaque code), ctx.Err(), errors.New, and fmt.Errorf wrapping. -/
inductive GoError where
  | notFound
  | transport (code : Nat)
  | ctxErr (reason : CancelReason)
  | errNew (msg : Msg)
  | wrapped (msg : Msg) (inner : GoError)
deriving DecidableEq

/-- Modelled from the spec: the type TransactionReceipt is not in src/, only
its use sites are. Per the spec a Receipt is a record keyed by a transaction
identifier with at minimum an optional block-number field; `txHash` stands
for the identifying key (and everything else), `blockNumber` for the
optional *big.Int BlockNumber field tested against nil by the source. -/
structure TransactionReceipt where
  txHash : Nat
  blockNumber : Option Int
deriving DecidableEq

/-- Modelled from the spec: go-ethereum types.Header, of which the source
reads only the block Number (*big.Int). -/
structure Header where
  number : Int
deriving DecidableEq

/-- Modelled from the spec: the type TransactionResponse is not in src/;
the wrapper never inspects it, so it is opaque. -/
structure TransactionResponse where
  data : Nat
deriving DecidableEq

/-- Modelled from the spec: the type L2ToL1MessageProof is not in src/;
the wrapper never inspects it, so it is opaque. -/
structure L2ToL1MessageProof where
  data : Nat
deriving DecidableEq

/-- Modelled from the spec: the type BlockDetails is not in src/;
the wrapper never inspects it, so it is opaque. -/
structure BlockDetails where
  data : Nat
deriving DecidableEq

/-- Modelled from the spec: go-ethereum types.Block, opaque to this code. -/
structure EthBlock where
  data : Nat
deriving DecidableEq

/-- The local TmpBlock struct of GetBlockByNumber: number, l1BatchNumber,
l1BatchTimestamp (the latter two are nullable *hexutil.Big fields). -/
structure TmpBlock where
  number : Int
  l1BatchNumber : Option Int
  l1BatchTimestamp : Option Int
deriving DecidableEq

/-- The local TmpBlock struct of GetBlockByHash: l1BatchNumber and
l1BatchTimestamp only. -/
structure TmpBlockHash where
  l1BatchNumber : Option Int
  l1BatchTimestamp : Option Int
deriving DecidableEq

/-- The zksync2 Block type assembled by the block queries: the embedded
go-ethereum block plus the two L1 batch fields. -/
structure Block where
  block : EthBlock
  l1BatchNumber : Option Int
  l1BatchTimestamp : Option Int
deriving DecidableEq

/-- DefaultProvider.GetTransactionReceipt: the raw eth_getTransactionReceipt
call yields `resp` (an error, or a nullable receipt). An error is wrapped;
a null response becomes ethereum.NotFound; otherwise the receipt is
returned. -/
def GetTransactionReceipt (resp : Except GoError (Option TransactionReceipt)) :
    Except GoError TransactionReceipt :=
  match resp with
  | Except.error e => Except.error (GoError.wrapped Msg.queryGetTransactionReceipt e)
  | Except.ok none => Except.error GoError.notFound
  | Except.ok (some r) => Except.ok r

/-- DefaultProvider.GetTransaction: same null-check shape over
eth_getTransactionByHash. -/
def GetTransaction (resp : Except GoError (Option TransactionResponse)) :
    Except GoError TransactionResponse :=
  match resp with
  | Except.error e => Except.error (GoError.wrapped Msg.queryGetTransactionByHash e)
  | Except.ok none => Except.error GoError.notFound
  | Except.ok (some r) => Except.ok r

/-- DefaultProvider.ZksGetL2ToL1LogProof: same null-check shape over
zks_getL2ToL1LogProof. -/
def ZksGetL2ToL1LogProof (resp : Except GoError (Option L2ToL1MessageProof)) :
    Except GoError L2ToL1MessageProof :=
  match resp with
  | Except.error e => Except.error (GoError.wrapped Msg.queryGetL2ToL1LogProof e)
  | Except.ok none => Except.error GoError.notFound
  | Except.ok (some r) => Except.ok r

/-- DefaultProvider.ZksGetBlockDetails: same null-check shape over
zks_getBlockDetails. -/
def ZksGetBlockDetails (resp : Except GoError (Option BlockDetails)) :
    Except GoError BlockDetails :=
  match resp with
  | Except.error e => Except.error (GoError.wrapped Msg.queryGetBlockDetails e)
  | Except.ok none => Except.error GoError.notFound
  | Except.ok (some r) => Except.ok r

/-- DefaultProvider.GetBlockByNumber: the raw eth_getBlockByNumber call
yields `resp`; an error is wrapped, a null response becomes
ethereum.NotFound; otherwise the embedded client fetches the go-ethereum
block at the reported number (`blockByNumber`, errors propagated unwrapped)
and the Block is assembled. -/
def GetBlockByNumber (resp : Except GoError (Option TmpBlock))
    (blockByNumber : Int → Except GoError EthBlock) : Except GoError Block :=
  match resp with
  | Except.error e => Except.error (GoError.wrapped Msg.queryGetBlockByNumber e)
  | Except.ok none => Except.error GoError.notFound
  | Except.ok (some tmp) =>
    match blockByNumber tmp.number with
    | Except.error e => Except.error e
    | Except.ok eb => Except.ok ⟨eb, tmp.l1BatchNumber, tmp.l1BatchTimestamp⟩

/-- DefaultProvider.GetBlockByHash: as GetBlockByNumber but the go-ethereum
block is fetched by the same hash (`ethBlock`). -/
def GetBlockByHash (resp : Except GoError (Option TmpBlockHash))
    (ethBlock : Except GoError EthBlock) : Except GoError Block :=
  match resp with
  | Except.error e => Except.error (GoError.wrapped Msg.queryGetBlockByHash e)
  | Except.ok none => Except.error GoError.notFound
  | Except.ok (some tmp) =>
    match ethBlock with
    | Except.error e => Except.error e
    | Except.ok eb => Except.ok ⟨eb, tmp.l1BatchNumber, tmp.l1BatchTimestamp⟩

/-- One WaitMined loop body per attempt index `i`, with explicit fuel.
`rpc i` is the raw eth_getTransactionReceipt response of attempt `i` and is
passed through GetTransactionReceipt exactly as the source calls
p.GetTransactionReceipt. On `err == nil && receipt.BlockNumber != nil` the
receipt is returned (with the attempt count `i + 1`); otherwise the select
either observes cancellation and returns ctx.Err(), or the ticker fires and
the loop recurses. Fuel 0 means the loop is still running. -/
def waitMinedFrom (rpc : Nat → Except GoError (Option TransactionReceipt))
    (sel : Nat → Option CancelReason) :
    Nat → Nat → Option (Except GoError TransactionReceipt × Nat)
  | _, 0 => none
  | i, fuel + 1 =>
    match GetTransactionReceipt (rpc i) with
    | Except.ok r =>
      if r.blockNumber.isSome then some (Except.ok r, i + 1)
      else
        match sel i with
        | some reason => some (Except.error (GoError.ctxErr reason), i + 1)
        | none => waitMinedFrom rpc sel (i + 1) fuel
    | Except.error _ =>
      match sel i with
      | some reason => some (Except.error (GoError.ctxErr reason), i + 1)
      | none => waitMinedFrom rpc sel (i + 1) fuel

/-- DefaultProvider.WaitMined: run the polling loop from attempt 0.
The second component of a returned pair is the number of receipt fetches
performed. -/
def WaitMined (rpc : Nat → Except GoError (Option TransactionReceipt))
    (sel : Nat → Option CancelReason) (fuel : Nat) :
    Option (Except GoError TransactionReceipt × Nat) :=
  waitMinedFrom rpc sel 0 fuel

/-- Attempt `i` of the mining poll observes a mined receipt: the fetch
succeeded and the receipt's block number is non-null. -/
def minedHit (rpc : Nat → Except GoError (Option TransactionReceipt)) (i : Nat) : Bool :=
  match GetTransactionReceipt (rpc i) with
  | Except.ok r => r.blockNumber.isSome
  | Except.error _ => false

/-- The source's post-fetch error normalisation in WaitFinalized:
`if err == nil && blockHead == nil { err = ethereum.NotFound }`. Returns the
error the iteration fails with, if any. -/
def headErr : Except GoError (Option Header) → Option GoError
  | Except.error e => some e
  | Except.ok none => some GoError.notFound
  | Except.ok (some _) => none

/-- The finalization polling loop of DefaultProvider.WaitFinalized, one
iteration per index `i`: fetch the latest finalized header (`fetchHead i`);
any fetch error — including a null header, normalised to ethereum.NotFound —
is wrapped and returned at once; otherwise if the finalized number has
reached the receipt's block number `bn`, the receipt is returned; else the
select observes cancellation or the ticker and the loop recurses. -/
def waitFinalizedLoop (fetchHead : Nat → Except GoError (Option Header))
    (sel : Nat → Option CancelReason) (receipt : TransactionReceipt) (bn : Int) :
    Nat → Nat → Option (Except GoError TransactionReceipt)
  | _, 0 => none
  | i, fuel + 1 =>
    match fetchHead i with
    | Except.error e =>
      some (Except.error (GoError.wrapped Msg.failedGetFinalizedBlock e))
    | Except.ok none =>
      some (Except.error (GoError.wrapped Msg.failedGetFinalizedBlock GoError.notFound))
    | Except.ok (some hd) =>
      if bn ≤ hd.number then some (Except.ok receipt)
      else
        match sel i with
        | some reason => some (Except.error (GoError.ctxErr reason))
        | none => waitFinalizedLoop fetchHead sel receipt bn (i + 1) fuel

/-- The part of WaitFinalized that follows a successful WaitMined: the
defensive `receipt.BlockNumber == nil` check (errors.New("empty tx block
number")) and then the finalization polling loop. -/
def finalizePhase (receipt : TransactionReceipt)
    (fetchHead : Nat → Except GoError (Option Header))
    (sel : Nat → Option CancelReason) (fuel : Nat) :
    Option (Except GoError TransactionReceipt) :=
  match receipt.blockNumber with
  | none => some (Except.error (GoError.errNew Msg.emptyTxBlockNumber))
  | some bn => waitFinalizedLoop fetchHead sel receipt bn 0 fuel

/-- DefaultProvider.WaitFinalized: delegate to WaitMined (wrapping a failure
with "failed to wait for tx is mined"), then run the finalization phase.
`rpc`/`selM` drive the mining poll with fuel `fuelM`; `fetchHead`/`selF`
drive the finalization poll with fuel `fuelF`. -/
def WaitFinalized (rpc : Nat → Except GoError (Option TransactionReceipt))
    (selM : Nat → Option CancelReason)
    (fetchHead : Nat → Except GoError (Option Header))
    (selF : Nat → Option CancelReason) (fuelM fuelF : Nat) :
    Option (Except GoError TransactionReceipt) :=
  match WaitMined rpc selM fuelM with
  | none => none
  | some (Except.error e, _) =>
    some (Except.error (GoError.wrapped Msg.failedWaitMined e))
  | some (Except.ok receipt, _) => finalizePhase receipt fetchHead selF fuelF

/-- Concrete receipt poll trace of the spec scenario: [NotFound, NotFound,
receipt with blockNumber 100] (a null RPC response models the NotFound
outcome, exactly as GetTransactionReceipt produces it). -/
def pollSeq : Nat → Except GoError (Option TransactionReceipt) :=
  fun i => if i < 2 then Except.ok none else Except.ok (some ⟨0xAA, some 100⟩)

/-- Concrete receipt poll trace: the transaction never gets mined. -/
def neverMined : Nat → Except GoError (Option TransactionReceipt) :=
  fun _ => Except.ok none

/-- Concrete receipt poll trace: every fetch yields the mined receipt. -/
def alreadyMined : Nat → Except GoError (Option TransactionReceipt) :=
  fun _ => Except.ok (some ⟨0xAA, some 100⟩)

/-- Concrete select trace: cancellation never fires. -/
def noCancel : Nat → Option CancelReason := fun _ => none

/-- Concrete select trace: the context is already cancelled at every wait. -/
def cancelNow : Nat → Option CancelReason := fun _ => some CancelReason.canceled

/-- Concrete select trace: the deadline is observed after the third fetch. -/
def cancelAt2 : Nat → Option CancelReason :=
  fun i => if i = 2 then some CancelReason.deadlineExceeded else none

/-- Concrete finalized-header poll trace of the spec scenario:
[{number 98}, {number 99}, {number 101}]. -/
def headSeq : Nat → Except GoError (Option Header) :=
  fun i =>
    if i = 0 then Except.ok (some ⟨98⟩)
    else if i = 1 then Except.ok (some ⟨99⟩)
    else Except.ok (some ⟨101⟩)

/-- Concrete finalized-header poll trace: a transport error on the first
fetch, success on every later fetch. -/
def headFailFirst : Nat → Except GoError (Option Header) :=
  fun i => if i = 0 then Except.error (GoError.transport 1) else Except.ok (some ⟨1000⟩)

lemma waitMinedFrom_hit (rpc : Nat → Except GoError (Option TransactionReceipt))
    (sel : Nat → Option CancelReason) (i fuel : Nat) (r : TransactionReceipt)
    (h : GetTransactionReceipt (rpc i) = Except.ok r)
    (hbn : r.blockNumber.isSome = true) :
    waitMinedFrom rpc sel i (fuel + 1) = some (Except.ok r, i + 1) := by
  simp [waitMinedFrom, h, hbn]

lemma waitMinedFrom_miss (rpc : Nat → Except GoError (Option TransactionReceipt))
    (sel : Nat → Option CancelReason) (i fuel : Nat)
    (h : minedHit rpc i = false) (hs : sel i = none) :
    waitMinedFrom rpc sel i (fuel + 1) = waitMinedFrom rpc sel (i + 1) fuel := by
  unfold minedHit at h
  cases hg : GetTransactionReceipt (rpc i) with
  | ok r =>
    rw [hg] at h
    simp at h
    simp [waitMinedFrom, hg, h, hs]
  | error e =>
    simp [waitMinedFrom, hg, hs]

lemma waitMinedFrom_cancel (rpc : Nat → Except GoError (Option TransactionReceipt))
    (sel : Nat → Option CancelReason) (i fuel : Nat) (reason : CancelReason)
    (h : minedHit rpc i = false) (hs : sel i = some reason) :
    waitMinedFrom rpc sel i (fuel + 1) =
      some (Except.error (GoError.ctxErr reason), i + 1) := by
  unfold minedHit at h
  cases hg : GetTransactionReceipt (rpc i) with
  | ok r =>
    rw [hg] at h
    simp at h
    simp [waitMinedFrom, hg, h, hs]
  | error e =>
    simp [waitMinedFrom, hg, hs]

lemma waitMinedFrom_skip (rpc : Nat → Except GoError (Option TransactionReceipt))
    (sel : Nat → Option CancelReason) :
    ∀ (n i fuel : Nat),
      (∀ j, i ≤ j → j < i + n → minedHit rpc j = false ∧ sel j = none) →
      waitMinedFrom rpc sel i (n + fuel) = waitMinedFrom rpc sel (i + n) fuel := by
  intro n
  induction n with
  | zero => intro i fuel _; simp
  | succ n ih =>
    intro i fuel h
    have h0 := h i (le_refl i) (by omega)
    have hsum : n + 1 + fuel = (n + fuel) + 1 := by omega
    rw [hsum, waitMinedFrom_miss rpc sel i (n + fuel) h0.1 h0.2]
    have hrest := ih (i + 1) fuel (fun j hj1 hj2 => h j (by omega) (by omega))
    rw [hrest]
    congr 1
    omega

lemma waitMinedFrom_none (rpc : Nat → Except GoError (Option TransactionReceipt))
    (sel : Nat → Option CancelReason)
    (hm : ∀ j, minedHit rpc j = false) (hs : ∀ j, sel j = none) :
    ∀ (fuel i : Nat), waitMinedFrom rpc sel i fuel = none := by
  intro fuel
  induction fuel with
  | zero => intro i; rfl
  | succ fuel ih =>
    intro i
    rw [waitMinedFrom_miss rpc sel i fuel (hm i) (hs i)]
    exact ih (i + 1)

lemma waitMinedFrom_ok_blockNumber
    (rpc : Nat → Except GoError (Option TransactionReceipt))
    (sel : Nat → Option CancelReason) :
    ∀ (fuel i : Nat) (r : TransactionReceipt) (k : Nat),
      waitMinedFrom rpc sel i fuel = some (Except.ok r, k) →
      r.blockNumber.isSome = true := by
  intro fuel
  induction fuel with
  | zero => intro i r k h; simp [waitMinedFrom] at h
  | succ fuel ih =>
    intro i r k h
    unfold waitMinedFrom at h
    split at h
    case _ r2 heq =>
      split at h
      case _ hbn =>
        simp at h
        rw [← h.1]
        exact hbn
      case _ hbn =>
        split at h
        · simp at h
        · exact ih (i + 1) r k h
    case _ e heq =>
      split at h
      · simp at h
      · exact ih (i + 1) r k h

lemma waitFinalizedLoop_step (fetchHead : Nat → Except GoError (Option Header))
    (sel : Nat → Option CancelReason) (receipt : TransactionReceipt) (bn : Int)
    (i fuel : Nat) (hd : Header)
    (hhd : fetchHead i = Except.ok (some hd)) (hlt : hd.number < bn)
    (hsel : sel i = none) :
    waitFinalizedLoop fetchHead sel receipt bn i (fuel + 1) =
      waitFinalizedLoop fetchHead sel receipt bn (i + 1) fuel := by
  have hnle : ¬ bn ≤ hd.number := not_le.mpr hlt
  simp [waitFinalizedLoop, hhd, hnle, hsel]

lemma waitFinalizedLoop_fail (fetchHead : Nat → Except GoError (Option Header))
    (sel : Nat → Option CancelReason) (receipt : TransactionReceipt) (bn : Int)
    (i fuel : Nat) (e : GoError) (h : headErr (fetchHead i) = some e) :
    waitFinalizedLoop fetchHead sel receipt bn i (fuel + 1) =
      some (Except.error (GoError.wrapped Msg.failedGetFinalizedBlock e)) := by
  unfold headErr at h
  cases hg : fetchHead i with
  | error e2 =>
    rw [hg] at h
    simp at h
    rw [← h]
    simp [waitFinalizedLoop, hg]
  | ok o =>
    cases o with
    | none =>
      rw [hg] at h
      simp at h
      rw [← h]
      simp [waitFinalizedLoop, hg]
    | some hd =>
      rw [hg] at h
      simp at h

lemma waitFinalizedLoop_skip (fetchHead : Nat → Except GoError (Option Header))
    (sel : Nat → Option CancelReason) (receipt : TransactionReceipt) (bn : Int) :
    ∀ (n i fuel : Nat),
      (∀ j, i ≤ j → j < i + n →
        (∃ hd, fetchHead j = Except.ok (some hd) ∧ hd.number < bn) ∧ sel j = none) →
      waitFinalizedLoop fetchHead sel receipt bn i (n + fuel) =
        waitFinalizedLoop fetchHead sel receipt bn (i + n) fuel := by
  intro n
  induction n with
  | zero => intro i fuel _; simp
  | succ n ih =>
    intro i fuel h
    obtain ⟨⟨hd, hhd, hlt⟩, hsel⟩ := h i (le_refl i) (by omega)
    have hsum : n + 1 + fuel = (n + fuel) + 1 := by omega
    rw [hsum, waitFinalizedLoop_step fetchHead sel receipt bn i (n + fuel) hd hhd hlt hsel]
    have hrest := ih (i + 1) fuel (fun j hj1 hj2 => h j (by omega) (by omega))
    rw [hrest]
    congr 1
    omega

lemma waitFinalizedLoop_ok (fetchHead : Nat → Except GoError (Option Header))
    (sel : Nat → Option CancelReason) (receipt : TransactionReceipt) (bn : Int) :
    ∀ (fuel i : Nat) (r : TransactionReceipt),
      waitFinalizedLoop fetchHead sel receipt bn i fuel = some (Except.ok r) →
      r = receipt ∧
        ∃ n, i ≤ n ∧ (∃ hd, fetchHead n = Except.ok (some hd) ∧ bn ≤ hd.number) ∧
          ∀ j, i ≤ j → j < n →
            ∃ hd2, fetchHead j = Except.ok (some hd2) ∧ hd2.number < bn := by
  intro fuel
  induction fuel with
  | zero => intro i r h; simp [waitFinalizedLoop] at h
  | succ fuel ih =>
    intro i r h
    unfold waitFinalizedLoop at h
    split at h
    case _ e heq => simp at h
    case _ heq => simp at h
    case _ hd heq =>
      split at h
      case _ hle =>
        simp at h
        refine ⟨h.symm, i, le_refl i, ⟨hd, heq, hle⟩, ?_⟩
        intro j hj1 hj2
        exact absurd hj2 (not_lt.mpr hj1)
      case _ hle =>
        split at h
        case _ reason hsel => simp at h
        case _ hsel =>
          obtain ⟨hr, n, hn1, hhit, hprev⟩ := ih (i + 1) r h
          refine ⟨hr, n, by omega, hhit, ?_⟩
          intro j hj1 hj2
          rcases Nat.eq_or_lt_of_le hj1 with hji | hji
          · rw [← hji]
            exact ⟨hd, heq, not_le.mp hle⟩
          · exact hprev j hji hj2

/-- C1: if attempt `n` (0-indexed) is the first receipt fetch that succeeds
with a non-null block number — every earlier attempt failed or found no
mined receipt and was retried — then WaitMined returns exactly that receipt
after `n + 1` fetch attempts, for any fuel budget large enough to reach it. -/
theorem c1_waitMined_first_success
    (rpc : Nat → Except GoError (Option TransactionReceipt))
    (sel : Nat → Option CancelReason) (n fuel : Nat) (r : TransactionReceipt)
    (hmiss : ∀ j, j < n → minedHit rpc j = false)
    (hsel : ∀ j, j < n → sel j = none)
    (hr : GetTransactionReceipt (rpc n) = Except.ok r)
    (hbn : r.blockNumber.isSome = true)
    (hfuel : n < fuel) :
    WaitMined rpc sel fuel = some (Except.ok r, n + 1) := by
  have hskip := waitMinedFrom_skip rpc sel n 0 (fuel - n - 1 + 1)
    (fun j hj1 hj2 => ⟨hmiss j (by omega), hsel j (by omega)⟩)
  have hf : fuel = n + (fuel - n - 1 + 1) := by omega
  rw [WaitMined, hf, hskip]
  simpa using waitMinedFrom_hit rpc sel n (fuel - n - 1) r hr hbn

/-- C1 witness: the spec scenario [NotFound, NotFound, {blockNumber 100}]
makes WaitMined return the receipt with block number 100 after 3 attempts. -/
theorem c1_witness :
    WaitMined pollSeq noCancel 3 = some (Except.ok ⟨0xAA, some 100⟩, 3) :=
  c1_waitMined_first_success pollSeq noCancel 2 3 ⟨0xAA, some 100⟩
    (by decide) (by decide) rfl rfl (by decide)

/-- C4: if cancellation is observed at the wait after attempt `n` while no
attempt up to and including `n` has seen a mined receipt, WaitMined fails
with ctx.Err() carrying the cancellation reason and returns no receipt. -/
theorem c4_waitMined_cancelled
    (rpc : Nat → Except GoError (Option TransactionReceipt))
    (sel : Nat → Option CancelReason) (n fuel : Nat) (reason : CancelReason)
    (hmiss : ∀ j, j ≤ n → minedHit rpc j = false)
    (hsel : ∀ j, j < n → sel j = none)
    (hc : sel n = some reason)
    (hfuel : n < fuel) :
    WaitMined rpc sel fuel = some (Except.error (GoError.ctxErr reason), n + 1) := by
  have hskip := waitMinedFrom_skip rpc sel n 0 (fuel - n - 1 + 1)
    (fun j hj1 hj2 => ⟨hmiss j (by omega), hsel j (by omega)⟩)
  have hf : fuel = n + (fuel - n - 1 + 1) := by omega
  rw [WaitMined, hf, hskip]
  simpa using waitMinedFrom_cancel rpc sel n (fuel - n - 1) reason (hmiss n (le_refl n)) hc

/-- C4 witness: with a never-mined transaction and a deadline observed after
the third fetch, WaitMined returns the DeadlineExceeded ctx error. -/
theorem c4_witness :
    WaitMined neverMined cancelAt2 5 =
      some (Except.error (GoError.ctxErr CancelReason.deadlineExceeded), 3) :=
  c4_waitMined_cancelled neverMined cancelAt2 2 5 CancelReason.deadlineExceeded
    (by decide) (by decide) rfl (by decide)

/-- C5: if no receipt fetch ever succeeds with a non-null block number and
cancellation never fires, WaitMined never returns: for every fuel budget the
loop is still polling (no bound on the number of attempts). -/
theorem c5_waitMined_no_bound
    (rpc : Nat → Except GoError (Option TransactionReceipt))
    (sel : Nat → Option CancelReason)
    (hm : ∀ j, minedHit rpc j = false) (hs : ∀ j, sel j = none)
    (fuel : Nat) :
    WaitMined rpc sel fuel = none :=
  waitMinedFrom_none rpc sel hm hs fuel 0

/-- C5 witness: a never-mined transaction with no cancellation leaves
WaitMined still polling after 7 iterations. -/
theorem c5_witness : WaitMined neverMined noCancel 7 = none :=
  c5_waitMined_no_bound neverMined noCancel (fun _ => rfl) (fun _ => rfl) 7

/-- C8: WaitMined is idempotent on an already-mined transaction: two calls
whose first receipt fetch yields the same mined receipt `r` both return `r`,
each within a single poll iteration (one fetch, count 1, and the select
trace is never consulted — it is universally quantified). -/
theorem c8_waitMined_idempotent
    (rpc1 rpc2 : Nat → Except GoError (Option TransactionReceipt))
    (sel1 sel2 : Nat → Option CancelReason) (r : TransactionReceipt)
    (h1 : GetTransactionReceipt (rpc1 0) = Except.ok r)
    (hbn : r.blockNumber.isSome = true)
    (h2 : GetTransactionReceipt (rpc2 0) = Except.ok r) :
    WaitMined rpc1 sel1 1 = some (Except.ok r, 1) ∧
      WaitMined rpc2 sel2 1 = some (Except.ok r, 1) :=
  ⟨waitMinedFrom_hit rpc1 sel1 0 0 r h1 hbn,
   waitMinedFrom_hit rpc2 sel2 0 0 r h2 hbn⟩

/-- C8 witness: two calls on an already-mined receipt trace return the same
receipt with one fetch each, whatever the cancellation signal does. -/
theorem c8_witness :
    WaitMined alreadyMined noCancel 1 = some (Except.ok ⟨0xAA, some 100⟩, 1) ∧
      WaitMined alreadyMined cancelNow 1 = some (Except.ok ⟨0xAA, some 100⟩, 1) :=
  c8_waitMined_idempotent alreadyMined alreadyMined noCancel cancelNow
    ⟨0xAA, some 100⟩ rfl rfl rfl

/-- C10: cancellation is only checked after a receipt fetch completes: even
when the context is already cancelled before the call (`sel 0 = some
reason`), exactly one fetch is still performed; if that first fetch yields a
receipt with a non-null block number WaitMined returns it successfully, and
only otherwise does it return the Cancelled error. -/
theorem c10_waitMined_fetch_before_cancel
    (rpc : Nat → Except GoError (Option TransactionReceipt))
    (sel : Nat → Option CancelReason) (reason : CancelReason) (fuel : Nat)
    (h : sel 0 = some reason) :
    (∃ res, WaitMined rpc sel (fuel + 1) = some (res, 1)) ∧
      (∀ r, GetTransactionReceipt (rpc 0) = Except.ok r →
        r.blockNumber.isSome = true →
        WaitMined rpc sel (fuel + 1) = some (Except.ok r, 1)) ∧
      (minedHit rpc 0 = false →
        WaitMined rpc sel (fuel + 1) =
          some (Except.error (GoError.ctxErr reason), 1)) := by
  refine ⟨?_, ?_, ?_⟩
  · cases hh : minedHit rpc 0 with
    | true =>
      unfold minedHit at hh
      cases hg : GetTransactionReceipt (rpc 0) with
      | ok r =>
        rw [hg] at hh
        exact ⟨Except.ok r, waitMinedFrom_hit rpc sel 0 fuel r hg hh⟩
      | error e => rw [hg] at hh; simp at hh
    | false =>
      exact ⟨Except.error (GoError.ctxErr reason),
        waitMinedFrom_cancel rpc sel 0 fuel reason hh h⟩
  · intro r hr hbn
    exact waitMinedFrom_hit rpc sel 0 fuel r hr hbn
  · intro hmiss
    exact waitMinedFrom_cancel rpc sel 0 fuel reason hmiss h

/-- C10 witness: with the context already cancelled and a never-mined
transaction, WaitMined still performs its first fetch and then returns the
Cancelled error after exactly one attempt. -/
theorem c10_witness :
    WaitMined neverMined cancelNow 1 =
      some (Except.error (GoError.ctxErr CancelReason.canceled), 1) :=
  (c10_waitMined_fetch_before_cancel neverMined cancelNow
    CancelReason.canceled 0 rfl).2.2 rfl

/-- C2: whenever WaitFinalized returns successfully, the receipt it returns
is exactly the receipt its internal WaitMined call returned, and success
occurs at the first finalization poll whose fetched finalized block number
reaches the receipt's block number (every earlier poll saw a smaller one). -/
theorem c2_waitFinalized_same_receipt
    (rpc : Nat → Except GoError (Option TransactionReceipt))
    (selM : Nat → Option CancelReason)
    (fetchHead : Nat → Except GoError (Option Header))
    (selF : Nat → Option CancelReason) (fuelM fuelF : Nat) (r : TransactionReceipt)
    (h : WaitFinalized rpc selM fetchHead selF fuelM fuelF = some (Except.ok r)) :
    (∃ k, WaitMined rpc selM fuelM = some (Except.ok r, k)) ∧
      ∃ bn, r.blockNumber = some bn ∧
        ∃ n hd, fetchHead n = Except.ok (some hd) ∧ bn ≤ hd.number ∧
          ∀ j, j < n → ∃ hd2, fetchHead j = Except.ok (some hd2) ∧ hd2.number < bn := by
  unfold WaitFinalized at h
  cases hw : WaitMined rpc selM fuelM with
  | none => rw [hw] at h; simp at h
  | some p =>
    obtain ⟨res, k⟩ := p
    rw [hw] at h
    cases res with
    | error e => simp at h
    | ok receipt =>
      have h2 : finalizePhase receipt fetchHead selF fuelF = some (Except.ok r) := h
      unfold finalizePhase at h2
      cases hbn : receipt.blockNumber with
      | none => rw [hbn] at h2; simp at h2
      | some bn =>
        rw [hbn] at h2
        obtain ⟨hr, n, _, ⟨hd, hhd, hle⟩, hprev⟩ :=
          waitFinalizedLoop_ok fetchHead selF receipt bn fuelF 0 r h2
        subst hr
        exact ⟨⟨k, rfl⟩, bn, hbn, n, hd, hhd, hle,
          fun j hj => hprev j (Nat.zero_le j) hj⟩

/-- C2 witness: the spec scenario — receipt mined at block 100 after 3 poll
attempts, finalized-header sequence [98, 99, 101] — makes WaitFinalized
return the unchanged WaitMined receipt, with the first sufficient finalized
block observed after two smaller ones. -/
theorem c2_witness :
    (∃ k, WaitMined pollSeq noCancel 3 = some (Except.ok ⟨0xAA, some 100⟩, k)) ∧
      ∃ bn, (⟨0xAA, some 100⟩ : TransactionReceipt).blockNumber = some bn ∧
        ∃ n hd, headSeq n = Except.ok (some hd) ∧ bn ≤ hd.number ∧
          ∀ j, j < n → ∃ hd2, headSeq j = Except.ok (some hd2) ∧ hd2.number < bn :=
  c2_waitFinalized_same_receipt pollSeq noCancel headSeq noCancel 3 3
    ⟨0xAA, some 100⟩ rfl

/-- C3: in the finalization phase, the first finalized-block fetch that
fails — or succeeds with no header, normalised to Not-Found — makes
WaitFinalized fail at once with that wrapped error, for every remaining fuel
budget and regardless of any later fetch outcomes: the fetch is never
retried, asymmetric with the mining poll's retry-on-failure. -/
theorem c3_waitFinalized_head_failure_fatal
    (rpc : Nat → Except GoError (Option TransactionReceipt))
    (selM : Nat → Option CancelReason)
    (fetchHead : Nat → Except GoError (Option Header))
    (selF : Nat → Option CancelReason) (fuelM fuelF : Nat)
    (r : TransactionReceipt) (k n : Nat) (bn : Int) (e : GoError)
    (hw : WaitMined rpc selM fuelM = some (Except.ok r, k))
    (hbn : r.blockNumber = some bn)
    (hcont : ∀ j, j < n →
      (∃ hd, fetchHead j = Except.ok (some hd) ∧ hd.number < bn) ∧ selF j = none)
    (hfail : headErr (fetchHead n) = some e)
    (hfuel : n < fuelF) :
    WaitFinalized rpc selM fetchHead selF fuelM fuelF =
      some (Except.error (GoError.wrapped Msg.failedGetFinalizedBlock e)) := by
  unfold WaitFinalized
  rw [hw]
  show finalizePhase r fetchHead selF fuelF = _
  unfold finalizePhase
  rw [hbn]
  show waitFinalizedLoop fetchHead selF r bn 0 fuelF = _
  have hskip := waitFinalizedLoop_skip fetchHead selF r bn n 0 (fuelF - n - 1 + 1)
    (fun j hj1 hj2 => hcont j (by omega))
  have hf : fuelF = n + (fuelF - n - 1 + 1) := by omega
  rw [hf, hskip]
  simpa using waitFinalizedLoop_fail fetchHead selF r bn n (fuelF - n - 1) e hfail

/-- C3 witness: a transport error on the very first finalized-block fetch,
followed by fetches that would succeed, still makes WaitFinalized fail (even
with fuel for 10 finalization polls): the failure is not retried. -/
theorem c3_witness :
    WaitFinalized pollSeq noCancel headFailFirst noCancel 3 10 =
      some (Except.error
        (GoError.wrapped Msg.failedGetFinalizedBlock (GoError.transport 1))) :=
  c3_waitFinalized_head_failure_fatal pollSeq noCancel headFailFirst noCancel 3 10
    ⟨0xAA, some 100⟩ 3 0 100 (GoError.transport 1) rfl rfl
    (fun j hj => absurd hj (Nat.not_lt_zero j)) rfl (by decide)

/-- C6: WaitMined only ever returns receipts with a non-null block number
(its success postcondition), and the defensive branch of WaitFinalized —
a mined receipt with an absent block number — fails with the
errors.New("empty tx block number") invariant-violation error rather than
proceeding to the finalization poll. -/
theorem c6_empty_block_number_defensive
    (rpc : Nat → Except GoError (Option TransactionReceipt))
    (sel : Nat → Option CancelReason) (fuel k : Nat) (r r2 : TransactionReceipt)
    (fetchHead : Nat → Except GoError (Option Header))
    (selF : Nat → Option CancelReason) (fuelF : Nat) :
    (WaitMined rpc sel fuel = some (Except.ok r, k) → r.blockNumber.isSome = true) ∧
      (r2.blockNumber = none →
        finalizePhase r2 fetchHead selF fuelF =
          some (Except.error (GoError.errNew Msg.emptyTxBlockNumber))) := by
  constructor
  · intro h
    exact waitMinedFrom_ok_blockNumber rpc sel fuel 0 r k h
  · intro h
    unfold finalizePhase
    rw [h]

/-- C6 witness: the receipt returned in the spec scenario has a non-null
block number, and a receipt lacking one makes the finalization phase fail
with the invariant-violation error. -/
theorem c6_witness :
    (⟨0xAA, some 100⟩ : TransactionReceipt).blockNumber.isSome = true ∧
      finalizePhase ⟨0xAA, none⟩ headSeq noCancel 1 =
        some (Except.error (GoError.errNew Msg.emptyTxBlockNumber)) :=
  ⟨(c6_empty_block_number_defensive pollSeq noCancel 3 3 ⟨0xAA, some 100⟩
      ⟨0xAA, none⟩ headSeq noCancel 1).1 rfl,
   (c6_empty_block_number_defensive pollSeq noCancel 3 3 ⟨0xAA, some 100⟩
      ⟨0xAA, none⟩ headSeq noCancel 1).2 rfl⟩

/-- C7: when the internal WaitMined call fails, WaitFinalized fails with
that same error wrapped with the "failed to wait for tx is mined" context —
the inner error unchanged — and never enters the finalization poll: the
conclusion holds for every finalization trace and even a zero finalization
fuel budget. -/
theorem c7_waitFinalized_propagates_mining_failure
    (rpc : Nat → Except GoError (Option TransactionReceipt))
    (selM : Nat → Option CancelReason) (fuelM : Nat) (e : GoError) (k : Nat)
    (fetchHead : Nat → Except GoError (Option Header))
    (selF : Nat → Option CancelReason) (fuelF : Nat)
    (h : WaitMined rpc selM fuelM = some (Except.error e, k)) :
    WaitFinalized rpc selM fetchHead selF fuelM fuelF =
      some (Except.error (GoError.wrapped Msg.failedWaitMined e)) := by
  unfold WaitFinalized
  rw [h]

/-- C7 witness: a cancelled mining phase propagates through WaitFinalized as
the wrapped ctx error, with zero finalization fuel consumed. -/
theorem c7_witness :
    WaitFinalized neverMined cancelNow headSeq noCancel 1 0 =
      some (Except.error
        (GoError.wrapped Msg.failedWaitMined (GoError.ctxErr CancelReason.canceled))) :=
  c7_waitFinalized_propagates_mining_failure neverMined cancelNow 1
    (GoError.ctxErr CancelReason.canceled) 1 headSeq noCancel 0 rfl

/-- C9: for each nullable-response query wrapper (GetTransactionReceipt,
GetTransaction, GetBlockByNumber, GetBlockByHash, ZksGetL2ToL1LogProof,
ZksGetBlockDetails), a null RPC response yields the ethereum.NotFound error
rather than a zero value, and a successful result can only arise from a
non-null response. -/
theorem c9_null_response_not_found
    (rR : Except GoError (Option TransactionReceipt))
    (rT : Except GoError (Option TransactionResponse))
    (rBN : Except GoError (Option TmpBlock))
    (fEth : Int → Except GoError EthBlock)
    (rBH : Except GoError (Option TmpBlockHash))
    (eEth : Except GoError EthBlock)
    (rL : Except GoError (Option L2ToL1MessageProof))
    (rD : Except GoError (Option BlockDetails)) :
    (GetTransactionReceipt (Except.ok none) = Except.error GoError.notFound ∧
      ∀ v, GetTransactionReceipt rR = Except.ok v → rR = Except.ok (some v)) ∧
    (GetTransaction (Except.ok none) = Except.error GoError.notFound ∧
      ∀ v, GetTransaction rT = Except.ok v → rT = Except.ok (some v)) ∧
    (GetBlockByNumber (Except.ok none) fEth = Except.error GoError.notFound ∧
      ∀ v, GetBlockByNumber rBN fEth = Except.ok v →
        ∃ t, rBN = Except.ok (some t)) ∧
    (GetBlockByHash (Except.ok none) eEth = Except.error GoError.notFound ∧
      ∀ v, GetBlockByHash rBH eEth = Except.ok v →
        ∃ t, rBH = Except.ok (some t)) ∧
    (ZksGetL2ToL1LogProof (Except.ok none) = Except.error GoError.notFound ∧
      ∀ v, ZksGetL2ToL1LogProof rL = Except.ok v → rL = Except.ok (some v)) ∧
    (ZksGetBlockDetails (Except.ok none) = Except.error GoError.notFound ∧
      ∀ v, ZksGetBlockDetails rD = Except.ok v → rD = Except.ok (some v)) := by
  refine ⟨⟨rfl, ?_⟩, ⟨rfl, ?_⟩, ⟨rfl, ?_⟩, ⟨rfl, ?_⟩, ⟨rfl, ?_⟩, ⟨rfl, ?_⟩⟩
  · intro v h
    cases rR with
    | error e => simp [GetTransactionReceipt] at h
    | ok o =>
      cases o with
      | none => simp [GetTransactionReceipt] at h
      | some w => simp [GetTransactionReceipt] at h; rw [h]
  · intro v h
    cases rT with
    | error e => simp [GetTransaction] at h
    | ok o =>
      cases o with
      | none => simp [GetTransaction] at h
      | some w => simp [GetTransaction] at h; rw [h]
  · intro v h
    cases rBN with
    | error e => simp [GetBlockByNumber] at h
    | ok o =>
      cases o with
      | none => simp [GetBlockByNumber] at h
      | some t => exact ⟨t, rfl⟩
  · intro v h
    cases rBH with
    | error e => simp [GetBlockByHash] at h
    | ok o =>
      cases o with
      | none => simp [GetBlockByHash] at h
      | some t => exact ⟨t, rfl⟩
  · intro v h
    cases rL with
    | error e => simp [ZksGetL2ToL1LogProof] at h
    | ok o =>
      cases o with
      | none => simp [ZksGetL2ToL1LogProof] at h
      | some w => simp [ZksGetL2ToL1LogProof] at h; rw [h]
  · intro v h
    cases rD with
    | error e => simp [ZksGetBlockDetails] at h
    | ok o =>
      cases o with
      | none => simp [ZksGetBlockDetails] at h
      | some w => simp [ZksGetBlockDetails] at h; rw [h]

/-- C9 witness: a null eth_getTransactionReceipt response is mapped to the
Not-Found error, and a successful result pins the response to the non-null
receipt it carries. -/
theorem c9_witness :
    GetTransactionReceipt (Except.ok none) = Except.error GoError.notFound ∧
      (Except.ok (some (⟨1, some 5⟩ : TransactionReceipt)) :
          Except GoError (Option TransactionReceipt)) =
        Except.ok (some ⟨1, some 5⟩) :=
  ⟨(c9_null_response_not_found (Except.ok none) (Except.ok none) (Except.ok none)
      (fun _ => Except.ok ⟨0⟩) (Except.ok none) (Except.ok ⟨0⟩) (Except.ok none)
      (Except.ok none)).1.1,
   (c9_null_response_not_found (Except.ok (some ⟨1, some 5⟩)) (Except.ok none)
      (Except.ok none) (fun _ => Except.ok ⟨0⟩) (Except.ok none) (Except.ok ⟨0⟩)
      (Except.ok none) (Except.ok none)).1.2 ⟨1, some 5⟩ rfl⟩

end ZkSync2
